import Mathlib

/-!
Verification of the inference-worker orchestration core of an in-browser
chatbot.  The JavaScript sources are embedded shallowly:

* `isRepetitive` mirrors the repetition guard of `frontend/js/utils.js`
  (strings are modelled as `List Char`, one element per UTF-16 unit);
* `WorkerState`/`workerGenerate` mirror the worker of
  `frontend/js/model-worker.js` (the same code is inlined as `WORKER_CODE`
  in `frontend/js/model-manager.js`);
* `ManagerState` with `mmInitModel`, `mmGenerate`, `handleWorkerMessage`,
  `mmAbort`, `mmUnloadModel` mirrors the `ModelManager` class of
  `frontend/js/model-manager.js`;
* `runSupervisor` and `dualGenerate` mirror `generateSingleResponse` and
  `generateResponse` of `frontend/js/app.js`.

The external inference engine is opaque; a generation run is parametrised
by the token texts the engine delivers, the point (if any) at which an
abort flag becomes visible to the token callback, and the engine call's
own outcome.
-/

namespace Chatbot

/-! ### Repetition guard (`isRepetitive`, frontend/js/utils.js lines 251-283) -/

/-- Characters that JavaScript's `String.prototype.trim` removes; used for
the guard's `pattern.trim().length === 0` test. -/
def jsWhitespace (c : Char) : Bool :=
  c.toNat = 9 || c.toNat = 10 || c.toNat = 11 || c.toNat = 12 || c.toNat = 13 ||
  c.toNat = 32 || c.toNat = 0xA0 || c.toNat = 0x2028 || c.toNat = 0x2029 ||
  c.toNat = 0xFEFF

/-- Mirrors `const threshold = len < 4 ? 25 : 6`. -/
def threshold (len : Nat) : Nat :=
  if len < 4 then 25 else 6

/-- Mirrors `text.slice(-n)`: the last `n` elements (all of `l` if `n ≥ l.length`). -/
def takeRight (l : List Char) (n : Nat) : List Char :=
  l.drop (l.length - n)

/-- Mirrors the inner loop `for (i = 0; i < threshold; i++) { if
(suffix.slice(i*len, (i+1)*len) !== pattern) ... }`. -/
def blockCheck (suffix pattern : List Char) (len t : Nat) : Bool :=
  (List.range t).all (fun i => (suffix.drop (i * len)).take len == pattern)

/-- Mirrors one iteration of the outer loop of `isRepetitive` at pattern
length `len` (the `continue` branches become `false`; the JS locals
`suffix = text.slice(-totalLen)` and `pattern = suffix.slice(0, len)` are
written inline). -/
def repCheckAt (text : List Char) (len : Nat) : Bool :=
  if text.length < len * threshold len then false
  else if ((takeRight text (len * threshold len)).take len).all jsWhitespace then false
  else blockCheck (takeRight text (len * threshold len))
    ((takeRight text (len * threshold len)).take len) len (threshold len)

/-- Mirrors `isRepetitive(text)` of frontend/js/utils.js: the outer loop
runs `len` from 1 to 50 and returns `true` at the first hit. -/
def isRepetitive (text : List Char) : Bool :=
  (List.range 50).any (fun k => repCheckAt text (k + 1))

/-- Repeat count `T` exactly as the claim words it: 25 for `L ≤ 3`, 6 for `L ≥ 4`. -/
def specRepeats (L : Nat) : Nat :=
  if L ≤ 3 then 25 else 6

/-- The specification's notion of a repetitive text, written from the
claim's words: for some pattern length `L` in `[1, 50]` the text has at
least `L * T` characters and its last `L * T` characters consist of a
single non-whitespace-only pattern of length `L` repeated back-to-back
`T` times. -/
def repetitiveSpec (text : List Char) : Prop :=
  ∃ L p, 1 ≤ L ∧ L ≤ 50 ∧ p.length = L ∧ p.all jsWhitespace = false ∧
    L * specRepeats L ≤ text.length ∧
    takeRight text (L * specRepeats L) = List.flatten (List.replicate (specRepeats L) p)

theorem threshold_eq_specRepeats (L : Nat) : threshold L = specRepeats L := by
  unfold threshold specRepeats
  by_cases h : L < 4
  · rw [if_pos h, if_pos (by omega)]
  · rw [if_neg h, if_neg (by omega)]

theorem threshold_pos (L : Nat) : 0 < threshold L := by
  unfold threshold
  by_cases h : L < 4
  · rw [if_pos h]; omega
  · rw [if_neg h]; omega

theorem length_join_replicate (n : Nat) (p : List Char) :
    (List.flatten (List.replicate n p)).length = n * p.length := by
  induction n with
  | zero => simp
  | succ k ih =>
      rw [List.replicate_succ, List.flatten_cons, List.length_append, ih]
      ring

theorem takeRight_length (l : List Char) (n : Nat) (h : n ≤ l.length) :
    (takeRight l n).length = n := by
  unfold takeRight
  rw [List.length_drop]
  omega

theorem takeRight_append (a b : List Char) (n : Nat) (h : n ≤ b.length) :
    takeRight (a ++ b) n = takeRight b n := by
  unfold takeRight
  rw [List.length_append]
  have h1 : a.length + b.length - n = a.length + (b.length - n) := by omega
  rw [h1, ← List.drop_drop, List.drop_left]

theorem blockCheck_eq_true (suffix pattern : List Char) (len t : Nat) :
    blockCheck suffix pattern len t = true ↔
      ∀ i, i < t → (suffix.drop (i * len)).take len = pattern := by
  unfold blockCheck
  rw [List.all_eq_true]
  constructor
  · intro h i hi
    exact beq_iff_eq.mp (h i (List.mem_range.mpr hi))
  · intro h i hi
    exact beq_iff_eq.mpr (h i (List.mem_range.mp hi))

theorem blockCheck_iff (len : Nat) (t : Nat) :
    ∀ (suffix pattern : List Char),
      suffix.length = len * t → pattern.length = len →
      (blockCheck suffix pattern len t = true ↔
        suffix = List.flatten (List.replicate t pattern)) := by
  induction t with
  | zero =>
      intro suffix pattern hs _
      rw [blockCheck_eq_true]
      constructor
      · intro _
        have h0 : suffix = [] := List.length_eq_zero.mp (by simpa using hs)
        simp [h0]
      · intro _ i hi
        omega
  | succ k ih =>
      intro suffix pattern hs hp
      rw [blockCheck_eq_true]
      have hrest : (suffix.drop len).length = len * k := by
        rw [List.length_drop, hs, Nat.mul_succ]
        omega
      constructor
      · intro h
        have h0 : suffix.take len = pattern := by
          have h00 := h 0 (Nat.succ_pos k)
          simpa using h00
        have hrec : suffix.drop len = List.flatten (List.replicate k pattern) := by
          rw [← ih (suffix.drop len) pattern hrest hp, blockCheck_eq_true]
          intro i hi
          rw [List.drop_drop]
          have hm : (i + 1) * len = len + i * len := by ring
          have hh := h (i + 1) (by omega)
          rwa [hm] at hh
        rw [List.replicate_succ, List.flatten_cons, ← hrec, ← h0]
        exact (List.take_append_drop len suffix).symm
      · intro h
        have hsplit : suffix = pattern ++ List.flatten (List.replicate k pattern) := by
          rw [h, List.replicate_succ, List.flatten_cons]
        have hdrop : suffix.drop len = List.flatten (List.replicate k pattern) := by
          rw [hsplit, ← hp, List.drop_left]
        intro i hi
        match i with
        | 0 =>
            rw [Nat.zero_mul, List.drop_zero, hsplit, ← hp, List.take_left]
        | Nat.succ j =>
            have hm : Nat.succ j * len = len + j * len := by
              rw [Nat.succ_mul]; omega
            rw [hm, ← List.drop_drop, hdrop]
            have hk := (ih (List.flatten (List.replicate k pattern)) pattern
              (by rw [length_join_replicate, hp]; ring) hp).mpr rfl
            rw [blockCheck_eq_true] at hk
            exact hk j (by omega)

theorem specRepeats_pos (L : Nat) : 0 < specRepeats L := by
  unfold specRepeats
  split <;> omega

theorem repCheckAt_sound (text : List Char) (len : Nat)
    (h : repCheckAt text len = true) :
    ∃ p : List Char, p.length = len ∧ p.all jsWhitespace = false ∧
      len * specRepeats len ≤ text.length ∧
      takeRight text (len * specRepeats len) =
        List.flatten (List.replicate (specRepeats len) p) := by
  unfold repCheckAt at h
  rw [threshold_eq_specRepeats] at h
  by_cases hlt : text.length < len * specRepeats len
  · rw [if_pos hlt] at h
    exact absurd h (by simp)
  · rw [if_neg hlt] at h
    by_cases hws : ((takeRight text (len * specRepeats len)).take len).all jsWhitespace = true
    · rw [if_pos hws] at h
      exact absurd h (by simp)
    · rw [if_neg hws] at h
      have hlen : len * specRepeats len ≤ text.length := by omega
      have hsl : (takeRight text (len * specRepeats len)).length = len * specRepeats len :=
        takeRight_length _ _ hlen
      have hpl : ((takeRight text (len * specRepeats len)).take len).length = len := by
        rw [List.length_take, hsl]
        have := specRepeats_pos len
        have : len ≤ len * specRepeats len := Nat.le_mul_of_pos_right len this
        omega
      refine ⟨(takeRight text (len * specRepeats len)).take len, hpl, ?_, hlen, ?_⟩
      · exact Bool.not_eq_true _ ▸ (Bool.eq_false_iff.mpr hws)
      · exact (blockCheck_iff len (specRepeats len) _ _ hsl hpl).mp h

theorem repCheckAt_complete (text p : List Char) (len : Nat)
    (hp : p.length = len) (hws : p.all jsWhitespace = false)
    (hlen : len * specRepeats len ≤ text.length)
    (heq : takeRight text (len * specRepeats len) =
      List.flatten (List.replicate (specRepeats len) p)) :
    repCheckAt text len = true := by
  unfold repCheckAt
  rw [threshold_eq_specRepeats]
  have hsl : (takeRight text (len * specRepeats len)).length = len * specRepeats len :=
    takeRight_length _ _ hlen
  have hpat : (takeRight text (len * specRepeats len)).take len = p := by
    rw [heq]
    have hs : specRepeats len = (specRepeats len - 1) + 1 := by
      have := specRepeats_pos len
      omega
    rw [hs, List.replicate_succ, List.flatten_cons, ← hp, List.take_left]
  rw [if_neg (by omega), hpat, if_neg (by rw [hws]; simp)]
  exact (blockCheck_iff len (specRepeats len) _ _ hsl hp).mpr heq

theorem all_ws_false_of_all_not (p : List Char) (h0 : p ≠ [])
    (h : p.all (fun c => !jsWhitespace c) = true) : p.all jsWhitespace = false := by
  cases p with
  | nil => exact absurd rfl h0
  | cons c cs =>
      rw [List.all_cons] at h ⊢
      have hc : jsWhitespace c = false := by
        have hh := (Bool.and_eq_true _ _).mp h |>.1
        simpa using hh
      rw [hc]
      simp

/-- C2: `isRepetitive(text)` returns true if and only if for some pattern
length `L` in `[1, 50]` the text has at least `L*T` characters and its
last `L*T` characters are one non-whitespace-only pattern of length `L`
repeated back-to-back `T` times, with `T = 25` for `L ≤ 3` and `T = 6`
for `L ≥ 4`; in particular every text ending in a whitespace-free
4-character token repeated 8 consecutive times trips the guard. -/
theorem isRepetitive_correct :
    (∀ text : List Char, isRepetitive text = true ↔ repetitiveSpec text) ∧
    (∀ pre p : List Char, p.length = 4 → p.all (fun c => !jsWhitespace c) = true →
      isRepetitive (pre ++ List.flatten (List.replicate 8 p)) = true) := by
  constructor
  · intro text
    unfold isRepetitive repetitiveSpec
    rw [List.any_eq_true]
    constructor
    · rintro ⟨k, hk, hrep⟩
      obtain ⟨p, hpl, hws, hlen, heq⟩ := repCheckAt_sound text (k + 1) hrep
      have hk50 : k < 50 := List.mem_range.mp hk
      exact ⟨k + 1, p, by omega, by omega, hpl, hws, hlen, heq⟩
    · rintro ⟨L, p, hL1, hL50, hpl, hws, hlen, heq⟩
      refine ⟨L - 1, List.mem_range.mpr (by omega), ?_⟩
      have hL : L - 1 + 1 = L := by omega
      rw [hL]
      exact repCheckAt_complete text p L hpl hws hlen heq
  · intro pre p hp hnws
    unfold isRepetitive
    rw [List.any_eq_true]
    refine ⟨3, List.mem_range.mpr (by omega), ?_⟩
    have hJ8 : (List.flatten (List.replicate 8 p)).length = 32 := by
      rw [length_join_replicate, hp]
    have hsplit : List.flatten (List.replicate 8 p) =
        List.flatten (List.replicate 2 p) ++ List.flatten (List.replicate 6 p) := by
      rw [← List.flatten_append, ← List.replicate_add]
    have h2l : (List.flatten (List.replicate 2 p)).length = 8 := by
      rw [length_join_replicate, hp]
    apply repCheckAt_complete _ p 4 hp
      (all_ws_false_of_all_not p (by intro hm; rw [hm] at hp; simp at hp) hnws)
    · show (24 : Nat) ≤ _
      rw [List.length_append, hJ8]
      omega
    · show takeRight (pre ++ List.flatten (List.replicate 8 p)) 24 =
        List.flatten (List.replicate 6 p)
      rw [takeRight_append _ _ 24 (by omega)]
      unfold takeRight
      rw [hJ8]
      show (List.flatten (List.replicate 8 p)).drop 8 = List.flatten (List.replicate 6 p)
      rw [hsplit, ← h2l, List.drop_left]

theorem isRepetitive_correct_witness :
    ((['a', 'b', 'c', 'd'] : List Char).all (fun c => !jsWhitespace c) = true) ∧
    isRepetitive ([] ++ List.flatten (List.replicate 8 ['a', 'b', 'c', 'd'])) = true :=
  ⟨by decide, isRepetitive_correct.2 [] ['a', 'b', 'c', 'd'] (by decide) (by decide)⟩

/-! ### Worker runtime (frontend/js/model-worker.js; inlined as WORKER_CODE in
frontend/js/model-manager.js) -/

/-- One role/content pair as used for `chatMessages` and for the
conversation-shaped engine result. -/
structure ChatMsg where
  role : String
  content : List Char
deriving DecidableEq, Repr

/-- Worker-global mutable state: `generator`, `currentModel`,
`isGenerating`, `shouldAbort` of model-worker.js. -/
structure WorkerState where
  hasGenerator : Bool
  currentModel : Option String
  isGenerating : Bool
  shouldAbort : Bool
deriving DecidableEq, Repr

/-- Events the worker posts back to the coordinator. -/
inductive WEvent where
  | statusEv (status msg : String)
  | progressEv (file : String) (pct : Nat)
  | readyEv (model : String) (device : Option String)
  | generatingEv
  | tokenEv (tok full : List Char)
  | completeEv (content : List Char) (model : Option String)
  | abortedEv
  | errorEv (msg : String)
  | unloadedEv
  | pongEv (ready : Bool) (model : Option String)
deriving DecidableEq, Repr

/-- Mirrors the streamer `callback_function`: a token callback first checks
`shouldAbort` (throwing if set), then appends the token to `fullResponse`
and posts a `token` event carrying both.  `acc` is the `fullResponse`
accumulated so far, `i` the index of the next callback invocation, and
`abortAt = some a` means the abort flag becomes visible from the `a`-th
callback on (the flag is cleared when the generation starts, so only
aborts arriving after the start count). -/
def abortFlag (abortAt : Option Nat) (i : Nat) : Bool :=
  match abortAt with
  | none => false
  | some a => decide (a ≤ i)

def streamTokens : List Char → Nat → Option Nat → List (List Char) → List WEvent
  | _, _, _, [] => []
  | acc, i, abortAt, t :: ts =>
    if abortFlag abortAt i then []
    else WEvent.tokenEv t (acc ++ t) :: streamTokens (acc ++ t) (i + 1) abortAt ts

/-- True when the `Aborted` exception was actually raised during streaming:
the abort flag was observed by one of the `n` token callbacks. -/
def streamThrew (abortAt : Option Nat) (n : Nat) : Bool :=
  match abortAt with
  | none => false
  | some a => decide (a < n)

/-- Mirrors the completion scan: `content = fullResponse` unless
`result[0].generated_text` is an array containing an assistant entry, in
which case the last assistant entry's content is used. -/
def lastAssistant : List ChatMsg → Option (List Char)
  | [] => none
  | m :: ms =>
    match lastAssistant ms with
    | some c => some c
    | none => if m.role = "assistant" then some m.content else none

/-- Final `content` of a successful generation. -/
def completeContent (full : List Char) (resultMsgs : Option (List ChatMsg)) : List Char :=
  match resultMsgs with
  | some msgs => (lastAssistant msgs).getD full
  | none => full

/-- Mirrors `generate(data)` of the worker.  The engine call is opaque, so
a run is parametrised by `tokens` (the token texts the engine feeds to the
streamer callback, in order), `abortAt` (when, if ever, an `abort` message
lands during the run), `engineFail` (a non-abort rejection of the engine
call) and `resultMsgs` (the conversation-shaped engine result, if any).
Returns the worker state after the `finally` block together with the
posted events. -/
def workerGenerate (w : WorkerState) (tokens : List (List Char)) (abortAt : Option Nat)
    (engineFail : Option String) (resultMsgs : Option (List ChatMsg)) :
    WorkerState × List WEvent :=
  if !w.hasGenerator then (w, [WEvent.errorEv "No model loaded"])
  else if w.isGenerating then (w, [WEvent.errorEv "Already generating"])
  else
    let body := streamTokens [] 0 abortAt tokens
    let terminal :=
      if streamThrew abortAt tokens.length then WEvent.abortedEv
      else
        match engineFail with
        | some m => WEvent.errorEv m
        | none => WEvent.completeEv (completeContent tokens.flatten resultMsgs) w.currentModel
    ({ w with isGenerating := false, shouldAbort := false },
      WEvent.generatingEv :: body ++ [terminal])

/-- Mirrors the `case 'abort': shouldAbort = true; break;` handler. -/
def workerAbort (w : WorkerState) : WorkerState × List WEvent :=
  ({ w with shouldAbort := true }, [])

/-- Delivers `n` consecutive `abort` messages to an idle worker. -/
def applyAborts (w : WorkerState) : Nat → WorkerState × List WEvent
  | 0 => (w, [])
  | n + 1 =>
    let r1 := workerAbort w
    let r2 := applyAborts r1.1 n
    (r2.1, r1.2 ++ r2.2)

def isTerminalEv : WEvent → Bool
  | WEvent.completeEv _ _ => true
  | WEvent.abortedEv => true
  | WEvent.errorEv _ => true
  | _ => false

def isTokenEv : WEvent → Bool
  | WEvent.tokenEv _ _ => true
  | _ => false

theorem streamTokens_all_token (acc : List Char) (i : Nat) (abortAt : Option Nat)
    (ts : List (List Char)) :
    ∀ e ∈ streamTokens acc i abortAt ts, isTokenEv e = true := by
  induction ts generalizing acc i with
  | nil =>
      intro e he
      simp [streamTokens] at he
  | cons t ts ih =>
      intro e he
      unfold streamTokens at he
      by_cases hab : abortFlag abortAt i = true
      · rw [if_pos hab] at he
        simp at he
      · rw [if_neg hab] at he
        rcases List.mem_cons.mp he with he | he
        · rw [he]
          rfl
        · exact ih (acc ++ t) (i + 1) e he

theorem token_not_terminal (e : WEvent) (h : isTokenEv e = true) : isTerminalEv e = false := by
  cases e <;> simp [isTokenEv, isTerminalEv] at h ⊢

theorem workerGenerate_accepted (w : WorkerState) (tokens : List (List Char))
    (abortAt : Option Nat) (engineFail : Option String) (resultMsgs : Option (List ChatMsg))
    (hg : w.hasGenerator = true) (hb : w.isGenerating = false) :
    workerGenerate w tokens abortAt engineFail resultMsgs =
      ({ w with isGenerating := false, shouldAbort := false },
        WEvent.generatingEv :: streamTokens [] 0 abortAt tokens ++
          [if streamThrew abortAt tokens.length then WEvent.abortedEv
           else
             match engineFail with
             | some m => WEvent.errorEv m
             | none =>
                 WEvent.completeEv (completeContent tokens.flatten resultMsgs)
                   w.currentModel]) := by
  unfold workerGenerate
  rw [hg, hb]
  simp

theorem terminal_of_generate (tokens : List (List Char)) (abortAt : Option Nat)
    (engineFail : Option String) (resultMsgs : Option (List ChatMsg)) (cm : Option String) :
    isTerminalEv
      (if streamThrew abortAt tokens.length then WEvent.abortedEv
       else
         match engineFail with
         | some m => WEvent.errorEv m
         | none => WEvent.completeEv (completeContent tokens.flatten resultMsgs) cm) =
      true := by
  split
  · rfl
  · cases engineFail <;> rfl

theorem terminal_of_generate_not_token (tokens : List (List Char)) (abortAt : Option Nat)
    (engineFail : Option String) (resultMsgs : Option (List ChatMsg)) (cm : Option String) :
    isTokenEv
      (if streamThrew abortAt tokens.length then WEvent.abortedEv
       else
         match engineFail with
         | some m => WEvent.errorEv m
         | none => WEvent.completeEv (completeContent tokens.flatten resultMsgs) cm) =
      false := by
  split
  · rfl
  · cases engineFail <;> rfl

/-- C6: each accepted generate command emits exactly one terminal event
(`complete`, `aborted` or `error`) for that generation, the terminal event
closes the stream, and every event between the opening `generating` event
and the terminal event is a `token` event. -/
theorem generation_single_terminal (w : WorkerState) (tokens : List (List Char))
    (abortAt : Option Nat) (engineFail : Option String) (resultMsgs : Option (List ChatMsg))
    (hg : w.hasGenerator = true) (hb : w.isGenerating = false) :
    ((workerGenerate w tokens abortAt engineFail resultMsgs).2.filter isTerminalEv).length = 1 ∧
    ∃ body term,
      (workerGenerate w tokens abortAt engineFail resultMsgs).2 =
          WEvent.generatingEv :: body ++ [term] ∧
        (∀ e ∈ body, isTokenEv e = true) ∧ isTerminalEv term = true := by
  rw [workerGenerate_accepted w tokens abortAt engineFail resultMsgs hg hb]
  dsimp only
  have hbody : ∀ e ∈ streamTokens [] 0 abortAt tokens, isTokenEv e = true :=
    streamTokens_all_token [] 0 abortAt tokens
  have hfil : (streamTokens [] 0 abortAt tokens).filter isTerminalEv = [] := by
    rw [List.filter_eq_nil_iff]
    intro e he
    rw [token_not_terminal e (hbody e he)]
    simp
  have hT := terminal_of_generate tokens abortAt engineFail resultMsgs w.currentModel
  have hgenTerm : isTerminalEv WEvent.generatingEv = false := rfl
  constructor
  · simp [List.filter_cons, List.filter_append, hfil, hT, hgenTerm]
  · exact ⟨streamTokens [] 0 abortAt tokens, _, rfl, hbody, hT⟩

theorem streamTokens_head (ts : List (List Char)) (acc : List Char) (i : Nat)
    (abortAt : Option Nat) (t2 f2 : List Char)
    (h : (streamTokens acc i abortAt ts)[0]? = some (WEvent.tokenEv t2 f2)) :
    f2 = acc ++ t2 := by
  cases ts with
  | nil => simp [streamTokens] at h
  | cons t ts =>
      unfold streamTokens at h
      by_cases hab : abortFlag abortAt i = true
      · rw [if_pos hab] at h
        simp at h
      · rw [if_neg hab] at h
        simp at h
        rw [← h.2, h.1]

theorem streamTokens_chain (ts : List (List Char)) :
    ∀ (acc : List Char) (i : Nat) (abortAt : Option Nat) (j : Nat) (t1 f1 t2 f2 : List Char),
      (streamTokens acc i abortAt ts)[j]? = some (WEvent.tokenEv t1 f1) →
      (streamTokens acc i abortAt ts)[j + 1]? = some (WEvent.tokenEv t2 f2) →
      f2 = f1 ++ t2 := by
  induction ts with
  | nil =>
      intro acc i abortAt j t1 f1 t2 f2 h1 _
      simp [streamTokens] at h1
  | cons t ts ih =>
      intro acc i abortAt j t1 f1 t2 f2 h1 h2
      unfold streamTokens at h1 h2
      by_cases hab : abortFlag abortAt i = true
      · rw [if_pos hab] at h1
        simp at h1
      · rw [if_neg hab] at h1 h2
        match j with
        | 0 =>
            simp at h1
            have hf2 := streamTokens_head ts (acc ++ t) (i + 1) abortAt t2 f2 (by simpa using h2)
            rw [hf2, h1.2]
        | Nat.succ k =>
            exact ih (acc ++ t) (i + 1) abortAt k t1 f1 t2 f2 (by simpa using h1)
              (by simpa using h2)

/-- C4: within one generation the token-event stream of the worker is
exactly `streamTokens [] 0 abortAt tokens`, and each successive token
event's accumulated-text field extends the previous one as a prefix
(strictly whenever the appended token text is nonempty), so its length is
monotonically non-decreasing across the stream. -/
theorem token_accumulated_monotone (w : WorkerState) (tokens : List (List Char))
    (abortAt : Option Nat) (engineFail : Option String) (resultMsgs : Option (List ChatMsg))
    (hg : w.hasGenerator = true) (hb : w.isGenerating = false) :
    ((workerGenerate w tokens abortAt engineFail resultMsgs).2.filter isTokenEv =
      streamTokens [] 0 abortAt tokens) ∧
    (∀ (j : Nat) (t1 f1 t2 f2 : List Char),
      (streamTokens [] 0 abortAt tokens)[j]? = some (WEvent.tokenEv t1 f1) →
      (streamTokens [] 0 abortAt tokens)[j + 1]? = some (WEvent.tokenEv t2 f2) →
      f1 <+: f2 ∧ f1.length ≤ f2.length ∧ (t2 ≠ [] → f1.length < f2.length)) := by
  constructor
  · rw [workerGenerate_accepted w tokens abortAt engineFail resultMsgs hg hb]
    dsimp only
    have htermNotTok :=
      terminal_of_generate_not_token tokens abortAt engineFail resultMsgs w.currentModel
    have hgenTok : isTokenEv WEvent.generatingEv = false := rfl
    have hself : List.filter isTokenEv (streamTokens [] 0 abortAt tokens) =
        streamTokens [] 0 abortAt tokens :=
      List.filter_eq_self.mpr (streamTokens_all_token [] 0 abortAt tokens)
    simp [List.filter_cons, List.filter_append, htermNotTok, hgenTok, hself]
  · intro j t1 f1 t2 f2 h1 h2
    have hf := streamTokens_chain tokens [] 0 abortAt j t1 f1 t2 f2 h1 h2
    subst hf
    refine ⟨⟨t2, rfl⟩, by simp, ?_⟩
    intro hne
    rw [List.length_append]
    have : 0 < t2.length := List.length_pos.mpr hne
    omega

theorem generation_single_terminal_witness :
    ((⟨true, some "m1", false, false⟩ : WorkerState).isGenerating = false) ∧
    ((workerGenerate ⟨true, some "m1", false, false⟩ [['H']] none none none).2.filter
      isTerminalEv).length = 1 :=
  ⟨rfl,
    (generation_single_terminal ⟨true, some "m1", false, false⟩ [['H']] none none none
      rfl rfl).1⟩

theorem token_accumulated_monotone_witness :
    ((⟨true, some "m1", false, false⟩ : WorkerState).hasGenerator = true) ∧
    (workerGenerate ⟨true, some "m1", false, false⟩ [['H'], ['i']] none none none).2.filter
        isTokenEv = streamTokens [] 0 none [['H'], ['i']] :=
  ⟨rfl,
    (token_accumulated_monotone ⟨true, some "m1", false, false⟩ [['H'], ['i']] none none
      none rfl rfl).1⟩

/-! ### Coordinator (`ModelManager`, frontend/js/model-manager.js) -/

/-- Messages the coordinator posts to a worker. -/
inductive CWMsg where
  | initMsg (model : String)
  | generateMsg
  | abortMsg
  | unloadMsg
deriving DecidableEq, Repr

/-- Messages a worker posts to the coordinator (payloads as in §6 of the
spec). -/
inductive WCMsg where
  | workerReady
  | statusMsg (status msg : String)
  | progressMsg (file : String) (pct : Nat)
  | readyMsg (device : Option String)
  | generatingMsg
  | tokenMsg (tok full : List Char)
  | completeMsg (content : List Char) (model : Option String)
  | abortedMsg
  | errorMsg (msg : String)
  | unloadedMsg
deriving DecidableEq, Repr

/-- The per-model entry of `this.callbacks`.  `initPromise = some p` stands
for the stored `resolve`/`reject` pair of `initModel`'s promise `p`;
`genCaller = some c` stands for the `onToken`/`onGenerating`/`onComplete`/
`onAborted`/`onError` closures registered by `generate` call `c` (they
settle call `c`'s promise). -/
structure CallbackSet where
  initPromise : Option Nat
  genCaller : Option Nat
deriving DecidableEq, Repr

/-- The `ModelManager` fields: `workers`, `readyModels`, `loadingModels`,
`callbacks`, plus `workerCount` counting `createWorker()` invocations and
`outbox` recording every `worker.postMessage` in order. -/
structure ManagerState where
  workers : List String
  workerCount : Nat
  readyModels : List String
  loadingModels : List String
  callbacks : List (String × CallbackSet)
  outbox : List (String × CWMsg)
deriving DecidableEq, Repr

def initialManager : ManagerState :=
  { workers := [], workerCount := 0, readyModels := [], loadingModels := [],
    callbacks := [], outbox := [] }

/-- `Set.prototype.add` on the identifier lists. -/
def listInsert (l : List String) (x : String) : List String :=
  if x ∈ l then l else x :: l

/-- `Set.prototype.delete` / `Map.prototype.delete`. -/
def listErase (l : List String) (x : String) : List String :=
  l.filter (fun y => y != x)

/-- `this.callbacks.get(modelId) || {}`. -/
def cbLookup (cbs : List (String × CallbackSet)) (mid : String) : CallbackSet :=
  match cbs.find? (fun p => p.1 == mid) with
  | some p => p.2
  | none => { initPromise := none, genCaller := none }

/-- `this.callbacks.set(modelId, c)`. -/
def cbSet (cbs : List (String × CallbackSet)) (mid : String) (c : CallbackSet) :
    List (String × CallbackSet) :=
  (mid, c) :: cbs.filter (fun p => p.1 != mid)

/-- Outcome of one `initModel` call. -/
inductive InitResult where
  | alreadyReady
  | pendingJoin
  | started
  | createFailed
deriving DecidableEq, Repr

/-- Mirrors `ModelManager.initModel` (lines 194-265).  `createOk = false`
models `createWorker()` throwing, `pid` identifies the promise whose
`resolve`/`reject` the executor stores in `this.callbacks`. -/
def mmInitModel (s : ManagerState) (mid : String) (createOk : Bool) (pid : Nat) :
    ManagerState × InitResult :=
  if mid ∈ s.readyModels then (s, InitResult.alreadyReady)
  else if mid ∈ s.loadingModels then (s, InitResult.pendingJoin)
  else if createOk then
    ({ s with
        loadingModels := listInsert s.loadingModels mid,
        workerCount := s.workerCount + 1,
        workers := listInsert s.workers mid,
        callbacks := cbSet s.callbacks mid { initPromise := some pid, genCaller := none } },
      InitResult.started)
  else
    ({ s with loadingModels := listErase (listInsert s.loadingModels mid) mid },
      InitResult.createFailed)

/-- Outcome of the polling promise returned by `initModel` when the model
is already loading: it resolves once the model is in `readyModels` and
rejects once it is in neither set. -/
def pollOutcome (s : ManagerState) (mid : String) : Option Bool :=
  if mid ∈ s.readyModels then some true
  else if mid ∈ s.loadingModels then none
  else some false

/-- Outcome of one `generate` call at the coordinator. -/
inductive GenResult where
  | rejected (msg : String)
  | posted
deriving DecidableEq, Repr

/-- Mirrors `ModelManager.generate` (lines 332-370): rejects when the
worker is missing or the model is not ready; otherwise merges the new
per-generation callbacks of call `callId` over the stored set and posts a
`generate` message. -/
def mmGenerate (s : ManagerState) (callId : Nat) (mid : String) :
    ManagerState × GenResult :=
  if mid ∉ s.workers then
    (s, GenResult.rejected ("Model " ++ mid ++ " not initialized"))
  else if mid ∉ s.readyModels then
    (s, GenResult.rejected ("Model " ++ mid ++ " not ready"))
  else
    ({ s with
        callbacks :=
          cbSet s.callbacks mid { cbLookup s.callbacks mid with genCaller := some callId },
        outbox := s.outbox ++ [(mid, CWMsg.generateMsg)] },
      GenResult.posted)

/-- Observable callback invocations and promise settlements performed by
`handleWorkerMessage`. -/
inductive MEffect where
  | onStatusCb (mid status msg : String)
  | onProgressCb (mid file : String) (pct : Nat)
  | onModelReadyCb (mid : String) (device : Option String)
  | onErrorCb (mid msg : String)
  | resolveInit (pid : Nat)
  | rejectInit (pid : Nat) (msg : String)
  | generatingCb (caller : Nat)
  | tokenCb (caller : Nat) (tok full : List Char)
  | completeCb (caller : Nat) (content : List Char)
  | abortedCb (caller : Nat)
  | errorCb (caller : Nat) (msg : String)
deriving DecidableEq, Repr

def optEffect {α : Type} (o : Option α) (f : α → MEffect) : List MEffect :=
  match o with
  | some a => [f a]
  | none => []

/-- Mirrors `ModelManager.handleWorkerMessage` (lines 270-327). -/
def handleWorkerMessage (s : ManagerState) (mid : String) (m : WCMsg) :
    ManagerState × List MEffect :=
  let cbs := cbLookup s.callbacks mid
  match m with
  | WCMsg.workerReady =>
      if mid ∈ s.workers then
        ({ s with outbox := s.outbox ++ [(mid, CWMsg.initMsg mid)] }, [])
      else (s, [])
  | WCMsg.statusMsg st msg => (s, [MEffect.onStatusCb mid st msg])
  | WCMsg.progressMsg f p => (s, [MEffect.onProgressCb mid f p])
  | WCMsg.readyMsg device =>
      ({ s with
          loadingModels := listErase s.loadingModels mid,
          readyModels := listInsert s.readyModels mid },
        MEffect.onModelReadyCb mid device :: optEffect cbs.initPromise MEffect.resolveInit)
  | WCMsg.generatingMsg => (s, optEffect cbs.genCaller MEffect.generatingCb)
  | WCMsg.tokenMsg t f => (s, optEffect cbs.genCaller (fun c => MEffect.tokenCb c t f))
  | WCMsg.completeMsg c _ => (s, optEffect cbs.genCaller (fun cl => MEffect.completeCb cl c))
  | WCMsg.abortedMsg => (s, optEffect cbs.genCaller MEffect.abortedCb)
  | WCMsg.errorMsg msg =>
      ({ s with loadingModels := listErase s.loadingModels mid },
        MEffect.onErrorCb mid msg ::
          (optEffect cbs.genCaller (fun c => MEffect.errorCb c msg) ++
            optEffect cbs.initPromise (fun p => MEffect.rejectInit p msg)))
  | WCMsg.unloadedMsg =>
      ({ s with
          readyModels := listErase s.readyModels mid,
          workers := listErase s.workers mid }, [])

/-- Mirrors `ModelManager.abort` (lines 375-380). -/
def mmAbort (s : ManagerState) (mid : String) : ManagerState :=
  if mid ∈ s.workers then { s with outbox := s.outbox ++ [(mid, CWMsg.abortMsg)] }
  else s

/-- Mirrors `ModelManager.unloadModel` (lines 394-403). -/
def mmUnloadModel (s : ManagerState) (mid : String) : ManagerState :=
  if mid ∈ s.workers then
    { s with
        outbox := s.outbox ++ [(mid, CWMsg.unloadMsg)],
        workers := listErase s.workers mid,
        readyModels := listErase s.readyModels mid,
        callbacks := s.callbacks.filter (fun p => p.1 != mid) }
  else s

/-- Mirrors the `worker.onerror` handler installed by `initModel`
(lines 240-254). -/
def mmWorkerFail (s : ManagerState) (mid : String) : ManagerState :=
  { s with
      loadingModels := listErase s.loadingModels mid,
      workers := listErase s.workers mid }

/-- Mirrors `ModelManager.isModelReady`. -/
def isModelReady (s : ManagerState) (mid : String) : Bool :=
  decide (mid ∈ s.readyModels)

/-- Mirrors `ModelManager.isModelLoading`. -/
def isModelLoading (s : ManagerState) (mid : String) : Bool :=
  decide (mid ∈ s.loadingModels)

/-- Every registry-mutating entry point of the coordinator, as one step of
a transition system. -/
inductive MOp where
  | opInit (mid : String) (createOk : Bool) (pid : Nat)
  | opGenerate (callId : Nat) (mid : String)
  | opWorkerMsg (mid : String) (m : WCMsg)
  | opWorkerFail (mid : String)
  | opAbort (mid : String)
  | opUnload (mid : String)
deriving DecidableEq, Repr

def mmStep (s : ManagerState) (op : MOp) : ManagerState :=
  match op with
  | MOp.opInit mid ok pid => (mmInitModel s mid ok pid).1
  | MOp.opGenerate cid mid => (mmGenerate s cid mid).1
  | MOp.opWorkerMsg mid m => (handleWorkerMessage s mid m).1
  | MOp.opWorkerFail mid => mmWorkerFail s mid
  | MOp.opAbort mid => mmAbort s mid
  | MOp.opUnload mid => mmUnloadModel s mid

/-- The coordinator run from its initial (module-load) state. -/
def mmRun (ops : List MOp) : ManagerState :=
  ops.foldl mmStep initialManager

theorem mem_listInsert (l : List String) (x a : String) :
    a ∈ listInsert l x ↔ a = x ∨ a ∈ l := by
  unfold listInsert
  by_cases hx : x ∈ l
  · rw [if_pos hx]
    constructor
    · exact Or.inr
    · rintro (rfl | h)
      · exact hx
      · exact h
  · rw [if_neg hx]
    exact List.mem_cons

theorem mem_listErase (l : List String) (x a : String) :
    a ∈ listErase l x ↔ a ∈ l ∧ a ≠ x := by
  unfold listErase
  rw [List.mem_filter]
  simp

/-- The registry never holds an identifier as both ready and loading. -/
def disjointRegistry (s : ManagerState) : Prop :=
  ∀ m : String, m ∈ s.readyModels → m ∉ s.loadingModels

theorem mmStep_disjoint (s : ManagerState) (op : MOp) (h : disjointRegistry s) :
    disjointRegistry (mmStep s op) := by
  cases op with
  | opInit mid ok pid =>
      show disjointRegistry (mmInitModel s mid ok pid).1
      unfold mmInitModel
      by_cases h1 : mid ∈ s.readyModels
      · rw [if_pos h1]
        exact h
      · rw [if_neg h1]
        by_cases h2 : mid ∈ s.loadingModels
        · rw [if_pos h2]
          exact h
        · rw [if_neg h2]
          by_cases h3 : ok = true
          · rw [if_pos h3]
            intro m hm hmem
            rcases (mem_listInsert _ _ _).mp hmem with rfl | hmem
            · exact h1 hm
            · exact h m hm hmem
          · rw [if_neg h3]
            intro m hm hmem
            have hm2 := (mem_listErase _ _ _).mp hmem
            rcases (mem_listInsert _ _ _).mp hm2.1 with rfl | hmem2
            · exact hm2.2 rfl
            · exact h m hm hmem2
  | opGenerate cid mid =>
      show disjointRegistry (mmGenerate s cid mid).1
      unfold mmGenerate
      by_cases h1 : mid ∉ s.workers
      · rw [if_pos h1]
        exact h
      · rw [if_neg h1]
        by_cases h2 : mid ∉ s.readyModels
        · rw [if_pos h2]
          exact h
        · rw [if_neg h2]
          exact h
  | opWorkerMsg mid m =>
      show disjointRegistry (handleWorkerMessage s mid m).1
      cases m with
      | workerReady =>
          unfold handleWorkerMessage
          by_cases h1 : mid ∈ s.workers
          · rw [if_pos h1]
            exact h
          · rw [if_neg h1]
            exact h
      | statusMsg st msg => exact h
      | progressMsg f p => exact h
      | readyMsg device =>
          intro m hm hmem
          have hm2 := (mem_listErase _ _ _).mp hmem
          rcases (mem_listInsert _ _ _).mp hm with rfl | hm3
          · exact hm2.2 rfl
          · exact h m hm3 hm2.1
      | generatingMsg => exact h
      | tokenMsg t f => exact h
      | completeMsg c mdl => exact h
      | abortedMsg => exact h
      | errorMsg msg =>
          intro m hm hmem
          exact h m hm ((mem_listErase _ _ _).mp hmem).1
      | unloadedMsg =>
          intro m hm hmem
          exact h m ((mem_listErase _ _ _).mp hm).1 hmem
  | opWorkerFail mid =>
      intro m hm hmem
      exact h m hm ((mem_listErase _ _ _).mp hmem).1
  | opAbort mid =>
      show disjointRegistry (mmAbort s mid)
      unfold mmAbort
      by_cases h1 : mid ∈ s.workers
      · rw [if_pos h1]
        exact h
      · rw [if_neg h1]
        exact h
  | opUnload mid =>
      show disjointRegistry (mmUnloadModel s mid)
      unfold mmUnloadModel
      by_cases h1 : mid ∈ s.workers
      · rw [if_pos h1]
        intro m hm hmem
        exact h m ((mem_listErase _ _ _).mp hm).1 hmem
      · rw [if_neg h1]
        exact h

/-- C10: after any sequence of coordinator operations and worker-message
deliveries, no model identifier is simultaneously in `readyModels` and
`loadingModels`, so `isModelReady` and `isModelLoading` never both return
true. -/
theorem registry_ready_loading_disjoint (ops : List MOp) (mid : String) :
    (isModelReady (mmRun ops) mid && isModelLoading (mmRun ops) mid) = false := by
  have hfold : ∀ (l : List MOp) (s : ManagerState), disjointRegistry s →
      disjointRegistry (l.foldl mmStep s) := by
    intro l
    induction l with
    | nil => intro s hs; exact hs
    | cons op l ih => intro s hs; exact ih (mmStep s op) (mmStep_disjoint s op hs)
  have hinv : disjointRegistry (mmRun ops) := by
    unfold mmRun
    refine hfold ops initialManager ?_
    intro m hm
    simp [initialManager] at hm
  unfold isModelReady isModelLoading
  by_cases hr : mid ∈ (mmRun ops).readyModels
  · have hnl := hinv mid hr
    simp [hr, hnl]
  · simp [hr]

/-- C9: calling `generate` for an identifier with no registered worker
rejects with the "not initialized" error and has no side effect: the
registry is unchanged and nothing is posted to any worker, so no worker
events can result. -/
theorem generate_not_initialized (s : ManagerState) (callId : Nat) (mid : String)
    (h : mid ∉ s.workers) :
    mmGenerate s callId mid =
      (s, GenResult.rejected ("Model " ++ mid ++ " not initialized")) := by
  unfold mmGenerate
  rw [if_pos h]

theorem generate_not_initialized_witness :
    (("m1" : String) ∉ initialManager.workers) ∧
    mmGenerate initialManager 0 "m1" =
      (initialManager, GenResult.rejected ("Model " ++ "m1" ++ " not initialized")) :=
  ⟨by decide, generate_not_initialized initialManager 0 "m1" (by decide)⟩

theorem cbLookup_cbSet (cbs : List (String × CallbackSet)) (mid : String) (c : CallbackSet) :
    cbLookup (cbSet cbs mid c) mid = c := by
  unfold cbLookup cbSet
  simp

/-- C5: while a first `initModel(id)` call is still loading, a second
`initModel(id)` call creates no worker and changes no state (it joins the
pending outcome), and its polling promise settles exactly when the first
call's stored promise does: the `ready` message resolves both, an `error`
message rejects both; if the model is already ready, `initModel` returns
immediately without touching the registry. -/
theorem initModel_idempotent (s0 : ManagerState) (mid : String) (p1 p2 : Nat) (ok2 : Bool)
    (hr : mid ∉ s0.readyModels) (hl : mid ∉ s0.loadingModels) :
    (mmInitModel s0 mid true p1).2 = InitResult.started ∧
    (mmInitModel s0 mid true p1).1.workerCount = s0.workerCount + 1 ∧
    mmInitModel (mmInitModel s0 mid true p1).1 mid ok2 p2 =
      ((mmInitModel s0 mid true p1).1, InitResult.pendingJoin) ∧
    pollOutcome (mmInitModel s0 mid true p1).1 mid = none ∧
    (∀ device,
      pollOutcome
          (handleWorkerMessage (mmInitModel s0 mid true p1).1 mid (WCMsg.readyMsg device)).1
          mid = some true ∧
        MEffect.resolveInit p1 ∈
          (handleWorkerMessage (mmInitModel s0 mid true p1).1 mid
            (WCMsg.readyMsg device)).2) ∧
    (∀ msg,
      pollOutcome
          (handleWorkerMessage (mmInitModel s0 mid true p1).1 mid (WCMsg.errorMsg msg)).1
          mid = some false ∧
        MEffect.rejectInit p1 msg ∈
          (handleWorkerMessage (mmInitModel s0 mid true p1).1 mid (WCMsg.errorMsg msg)).2) ∧
    (∀ s : ManagerState, mid ∈ s.readyModels →
      mmInitModel s mid ok2 p2 = (s, InitResult.alreadyReady)) := by
  have e1 : mmInitModel s0 mid true p1 =
      ({ s0 with
          loadingModels := listInsert s0.loadingModels mid,
          workerCount := s0.workerCount + 1,
          workers := listInsert s0.workers mid,
          callbacks := cbSet s0.callbacks mid { initPromise := some p1, genCaller := none } },
        InitResult.started) := by
    unfold mmInitModel
    rw [if_neg hr, if_neg hl, if_pos rfl]
  rw [e1]
  have hmem : mid ∈ listInsert s0.loadingModels mid := (mem_listInsert _ _ _).mpr (Or.inl rfl)
  refine ⟨rfl, rfl, ?_, ?_, ?_, ?_, ?_⟩
  · unfold mmInitModel
    rw [if_neg hr, if_pos hmem]
  · unfold pollOutcome
    rw [if_neg hr, if_pos hmem]
  · intro device
    unfold handleWorkerMessage
    constructor
    · unfold pollOutcome
      rw [if_pos ((mem_listInsert _ _ _).mpr (Or.inl rfl))]
    · rw [cbLookup_cbSet]
      simp [optEffect]
  · intro msg
    unfold handleWorkerMessage
    constructor
    · unfold pollOutcome
      rw [if_neg hr, if_neg (fun hc => ((mem_listErase _ _ _).mp hc).2 rfl)]
    · rw [cbLookup_cbSet]
      simp [optEffect]
  · intro s hs
    unfold mmInitModel
    rw [if_pos hs]

theorem initModel_idempotent_witness :
    (("m1" : String) ∉ initialManager.readyModels) ∧
    mmInitModel (mmInitModel initialManager "m1" true 0).1 "m1" true 1 =
      ((mmInitModel initialManager "m1" true 0).1, InitResult.pendingJoin) :=
  ⟨by decide,
    (initModel_idempotent initialManager "m1" 0 1 true (by decide) (by decide)).2.2.1⟩

theorem applyAborts_events (n : Nat) : ∀ w : WorkerState, (applyAborts w n).2 = [] := by
  induction n with
  | zero => intro w; rfl
  | succ k ih =>
      intro w
      show ((applyAborts (workerAbort w).1 k).1, (workerAbort w).2 ++ _).2 = []
      rw [ih (workerAbort w).1]
      rfl

theorem applyAborts_fst (n : Nat) : ∀ w : WorkerState,
    (applyAborts w n).1 = if n = 0 then w else { w with shouldAbort := true } := by
  induction n with
  | zero => intro w; rfl
  | succ k ih =>
      intro w
      show (applyAborts { w with shouldAbort := true } k).1 = _
      rw [ih { w with shouldAbort := true }, if_neg (Nat.succ_ne_zero k)]
      by_cases hk : k = 0
      · rw [if_pos hk]
      · rw [if_neg hk]

theorem workerGenerate_ignores_flag (w : WorkerState) (b : Bool) (tokens : List (List Char))
    (abortAt : Option Nat) (engineFail : Option String) (resultMsgs : Option (List ChatMsg))
    (hg : w.hasGenerator = true) (hb : w.isGenerating = false) :
    workerGenerate { w with shouldAbort := b } tokens abortAt engineFail resultMsgs =
      workerGenerate w tokens abortAt engineFail resultMsgs := by
  rw [workerGenerate_accepted { w with shouldAbort := b } tokens abortAt engineFail resultMsgs
    hg hb, workerGenerate_accepted w tokens abortAt engineFail resultMsgs hg hb]

/-- C8: any number of `abort` calls on an idle (non-generating) handle,
including after a generation has already completed, is a no-op: the
coordinator only posts `abort` messages (its registry is untouched and
nothing throws), the worker merely latches `shouldAbort` and emits no
event, and the stale flag does not change any later generation because a
new generation clears it on start and the `finally` block clears it again
on end. -/
theorem abort_idle_noop (w : WorkerState) (n : Nat) (s : ManagerState) (mid : String)
    (tokens tokens2 : List (List Char)) (abortAt abortAt2 : Option Nat)
    (engineFail engineFail2 : Option String) (resultMsgs resultMsgs2 : Option (List ChatMsg))
    (hg : w.hasGenerator = true) (hb : w.isGenerating = false) :
    (applyAborts w n).2 = [] ∧
    workerGenerate (applyAborts w n).1 tokens abortAt engineFail resultMsgs =
      workerGenerate w tokens abortAt engineFail resultMsgs ∧
    (workerGenerate w tokens abortAt engineFail resultMsgs).1 =
      { hasGenerator := w.hasGenerator, currentModel := w.currentModel,
        isGenerating := false, shouldAbort := false } ∧
    workerGenerate
        (applyAborts (workerGenerate w tokens abortAt engineFail resultMsgs).1 n).1
        tokens2 abortAt2 engineFail2 resultMsgs2 =
      workerGenerate (workerGenerate w tokens abortAt engineFail resultMsgs).1
        tokens2 abortAt2 engineFail2 resultMsgs2 ∧
    (mmAbort s mid).workers = s.workers ∧
    (mmAbort s mid).workerCount = s.workerCount ∧
    (mmAbort s mid).readyModels = s.readyModels ∧
    (mmAbort s mid).loadingModels = s.loadingModels ∧
    (mmAbort s mid).callbacks = s.callbacks := by
  have hpost : (workerGenerate w tokens abortAt engineFail resultMsgs).1 =
      { hasGenerator := w.hasGenerator, currentModel := w.currentModel,
        isGenerating := false, shouldAbort := false } := by
    rw [workerGenerate_accepted w tokens abortAt engineFail resultMsgs hg hb]
  have habort : (mmAbort s mid).workers = s.workers ∧
      (mmAbort s mid).workerCount = s.workerCount ∧
      (mmAbort s mid).readyModels = s.readyModels ∧
      (mmAbort s mid).loadingModels = s.loadingModels ∧
      (mmAbort s mid).callbacks = s.callbacks := by
    unfold mmAbort
    by_cases h1 : mid ∈ s.workers
    · rw [if_pos h1]
      exact ⟨rfl, rfl, rfl, rfl, rfl⟩
    · rw [if_neg h1]
      exact ⟨rfl, rfl, rfl, rfl, rfl⟩
  refine ⟨applyAborts_events n w, ?_, hpost, ?_, habort⟩
  · rw [applyAborts_fst n w]
    by_cases hn : n = 0
    · rw [if_pos hn]
    · rw [if_neg hn]
      exact workerGenerate_ignores_flag w true tokens abortAt engineFail resultMsgs hg hb
  · rw [applyAborts_fst n (workerGenerate w tokens abortAt engineFail resultMsgs).1]
    by_cases hn : n = 0
    · rw [if_pos hn]
    · rw [if_neg hn]
      exact workerGenerate_ignores_flag _ true tokens2 abortAt2 engineFail2 resultMsgs2
        (by rw [hpost, hg]) (by rw [hpost])

theorem abort_idle_noop_witness :
    ((⟨true, some "m1", false, false⟩ : WorkerState).hasGenerator = true) ∧
    workerGenerate (applyAborts ⟨true, some "m1", false, false⟩ 2).1 [['a']] none none none =
      workerGenerate ⟨true, some "m1", false, false⟩ [['a']] none none none :=
  ⟨rfl,
    (abort_idle_noop ⟨true, some "m1", false, false⟩ 2 initialManager "m1" [['a']] []
      none none none none none none rfl rfl).2.1⟩

/-- A coordinator state whose handle for model `"m1"` already has an
in-flight generation registered by `generate` call 1. -/
def busyManager : ManagerState :=
  { workers := ["m1"], workerCount := 1, readyModels := ["m1"], loadingModels := [],
    callbacks := [("m1", { initPromise := none, genCaller := some 1 })], outbox := [] }

/-- C1 (counterexample): with `generate` call 1 in flight on `"m1"`, a
second call `generate(2)` is not rejected fast and is not side-effect
free: the coordinator accepts it, posts a second `generate` command,
replaces the stored callback set (so `genCaller` becomes 2), and the next
`token` event of the first generation is delivered to call 2's callbacks,
not call 1's. -/
theorem generate_busy_counterexample :
    (mmGenerate busyManager 2 "m1").2 = GenResult.posted ∧
    (mmGenerate busyManager 2 "m1").1 ≠ busyManager ∧
    cbLookup (mmGenerate busyManager 2 "m1").1.callbacks "m1" =
      { initPromise := none, genCaller := some 2 } ∧
    (handleWorkerMessage (mmGenerate busyManager 2 "m1").1 "m1"
        (WCMsg.tokenMsg ['a'] ['a'])).2 = [MEffect.tokenCb 2 ['a'] ['a']] := by
  decide

/-- C1 (amended): a second `generate` call while a generation is in
flight is not rejected at the coordinator — it overwrites the handle's
callback registration with the new call's callbacks and posts a second
`generate` command. The busy worker answers that command with a single
`Already generating` error event, leaving its own in-flight generation
state untouched; delivering that error event rejects the second call's
promise. But the first generation is disturbed at the coordinator: its
subsequent token and terminal events are delivered to the second call's
callbacks, so the first call's promise never settles with its outcome. -/
theorem generate_busy_amended (s : ManagerState) (mid : String) (c2 : Nat)
    (w : WorkerState) (tokens : List (List Char)) (abortAt : Option Nat)
    (engineFail : Option String) (resultMsgs : Option (List ChatMsg))
    (hw : mid ∈ s.workers) (hr : mid ∈ s.readyModels)
    (hg : w.hasGenerator = true) (hbusy : w.isGenerating = true) :
    (mmGenerate s c2 mid).2 = GenResult.posted ∧
    (cbLookup (mmGenerate s c2 mid).1.callbacks mid).genCaller = some c2 ∧
    (mmGenerate s c2 mid).1.outbox = s.outbox ++ [(mid, CWMsg.generateMsg)] ∧
    workerGenerate w tokens abortAt engineFail resultMsgs =
      (w, [WEvent.errorEv "Already generating"]) ∧
    MEffect.errorCb c2 "Already generating" ∈
      (handleWorkerMessage (mmGenerate s c2 mid).1 mid
        (WCMsg.errorMsg "Already generating")).2 ∧
    (∀ t f, (handleWorkerMessage (mmGenerate s c2 mid).1 mid (WCMsg.tokenMsg t f)).2 =
      [MEffect.tokenCb c2 t f]) ∧
    (∀ c mdl,
      (handleWorkerMessage (mmGenerate s c2 mid).1 mid (WCMsg.completeMsg c mdl)).2 =
        [MEffect.completeCb c2 c]) ∧
    (∀ tok full,
      (handleWorkerMessage s mid (WCMsg.tokenMsg tok full)).2 =
        optEffect (cbLookup s.callbacks mid).genCaller
          (fun c => MEffect.tokenCb c tok full)) := by
  have e1 : mmGenerate s c2 mid =
      ({ s with
          callbacks := cbSet s.callbacks mid
            { cbLookup s.callbacks mid with genCaller := some c2 },
          outbox := s.outbox ++ [(mid, CWMsg.generateMsg)] },
        GenResult.posted) := by
    unfold mmGenerate
    rw [if_neg (fun hn => hn hw), if_neg (fun hn => hn hr)]
  have hwg : workerGenerate w tokens abortAt engineFail resultMsgs =
      (w, [WEvent.errorEv "Already generating"]) := by
    unfold workerGenerate
    rw [hg, hbusy]
    simp
  rw [e1]
  refine ⟨rfl, ?_, rfl, hwg, ?_, ?_, ?_, ?_⟩
  · rw [cbLookup_cbSet]
  · simp [handleWorkerMessage, cbLookup_cbSet, optEffect]
  · intro t f
    simp [handleWorkerMessage, cbLookup_cbSet, optEffect]
  · intro c mdl
    simp [handleWorkerMessage, cbLookup_cbSet, optEffect]
  · intro tok full
    rfl

theorem generate_busy_amended_witness :
    (("m1" : String) ∈ busyManager.workers) ∧
    (handleWorkerMessage (mmGenerate busyManager 2 "m1").1 "m1"
        (WCMsg.tokenMsg ['a'] ['b'])).2 = [MEffect.tokenCb 2 ['a'] ['b']] :=
  ⟨by decide,
    (generate_busy_amended busyManager "m1" 2 ⟨true, some "m1", true, false⟩ [] none none
      none (by decide) (by decide) rfl rfl).2.2.2.2.2.1 ['a'] ['b']⟩

/-! ### Generation supervisor (`generateSingleResponse`, frontend/js/app.js
lines 546-631) and dual orchestrator (`generateResponse`, lines 446-465) -/

/-- `const TIMEOUT_MS = 45000`. -/
def TIMEOUT_MS : Nat := 45000

/-- Terminal outcome of the underlying `modelManager.generate` promise. -/
inductive GenTerminal where
  | termComplete (content : List Char)
  | termAborted
  | termError (msg : String)
deriving DecidableEq, Repr

/-- One `token` event as seen by the supervisor: `gap` is the time in ms
since the previous event (or since the generation started), `accumulated`
the accumulated text carried by the event. -/
structure TokenArrival where
  gap : Nat
  accumulated : List Char
deriving DecidableEq, Repr

/-- Outcome of one supervised generation attempt. -/
inductive SupOutcome where
  | completed (content : List Char)
  | userAborted
  | timedOut
  | repetition
  | genError (msg : String)
deriving DecidableEq, Repr

/-- Mirrors `generateSingleResponse`: the watchdog timer is re-armed via
`resetTimeout()` before the generation and again on every `token` event,
so it fires exactly when some inter-event gap exceeds `TIMEOUT_MS`; each
`onToken` then runs the repetition guard on the accumulated text and
aborts on detection.  The returned pair is the attempt's outcome and the
number of `modelManager.abort` calls the supervisor itself issued. -/
def runSupervisor : List TokenArrival → Nat → GenTerminal → SupOutcome × Nat
  | [], finalGap, term =>
    if TIMEOUT_MS < finalGap then (SupOutcome.timedOut, 1)
    else
      match term with
      | GenTerminal.termComplete c => (SupOutcome.completed c, 0)
      | GenTerminal.termAborted => (SupOutcome.userAborted, 0)
      | GenTerminal.termError m => (SupOutcome.genError m, 0)
  | a :: rest, finalGap, term =>
    if TIMEOUT_MS < a.gap then (SupOutcome.timedOut, 1)
    else if isRepetitive a.accumulated then (SupOutcome.repetition, 1)
    else runSupervisor rest finalGap term

/-- The error the wrapper reports for each outcome: `none` when
`generateSingleResponse` returns normally (completion and user-initiated
stop), otherwise the message of the error it throws or catches. -/
def supErrorMessage : SupOutcome → Option String
  | SupOutcome.completed _ => none
  | SupOutcome.userAborted => none
  | SupOutcome.timedOut => some "Generation timed out - model stopped responding"
  | SupOutcome.repetition => some "Generation stopped due to repetitive output"
  | SupOutcome.genError m => some m

/-- C3: the inactivity timer is re-armed on every token event, so the
watchdog never fires while every inter-event gap stays within the
45-second window regardless of total duration; when a gap exceeds the
window the supervisor issues exactly one abort for that trip and reports
the timeout-specific message, which differs from a user-initiated stop
(no error) and from a generic generation error (the engine's own
message). -/
theorem supervisor_timeout_watchdog (pre rest : List TokenArrival) (a : TokenArrival)
    (finalGap : Nat) (term : GenTerminal)
    (hpre : ∀ b ∈ pre, b.gap ≤ TIMEOUT_MS ∧ isRepetitive b.accumulated = false)
    (hgap : TIMEOUT_MS < a.gap) :
    runSupervisor (pre ++ a :: rest) finalGap term = (SupOutcome.timedOut, 1) ∧
    (∀ arrivals : List TokenArrival, (∀ b ∈ arrivals, b.gap ≤ TIMEOUT_MS) →
      finalGap ≤ TIMEOUT_MS →
      (runSupervisor arrivals finalGap term).1 ≠ SupOutcome.timedOut) ∧
    supErrorMessage SupOutcome.timedOut =
      some "Generation timed out - model stopped responding" ∧
    supErrorMessage SupOutcome.userAborted = none ∧
    (∀ m, supErrorMessage (SupOutcome.genError m) = supErrorMessage SupOutcome.timedOut →
      m = "Generation timed out - model stopped responding") := by
  refine ⟨?_, ?_, rfl, rfl, ?_⟩
  · induction pre with
    | nil =>
        show runSupervisor (a :: rest) finalGap term = _
        unfold runSupervisor
        rw [if_pos hgap]
    | cons b pre ih =>
        have hb := hpre b (List.mem_cons_self b pre)
        show runSupervisor (b :: (pre ++ a :: rest)) finalGap term = _
        unfold runSupervisor
        rw [if_neg (by omega), hb.2]
        simp only [Bool.false_eq_true, if_false]
        exact ih (fun x hx => hpre x (List.mem_cons_of_mem b hx))
  · intro arrivals hall hfin
    induction arrivals with
    | nil =>
        unfold runSupervisor
        rw [if_neg (by omega)]
        cases term <;> simp
    | cons b l ih =>
        have hb := hall b (List.mem_cons_self b l)
        unfold runSupervisor
        rw [if_neg (by omega)]
        by_cases hrep : isRepetitive b.accumulated = true
        · rw [if_pos hrep]
          simp
        · rw [if_neg hrep]
          exact ih (fun x hx => hall x (List.mem_cons_of_mem b hx))
  · intro m h
    simpa [supErrorMessage] using h

theorem supervisor_timeout_watchdog_witness :
    (TIMEOUT_MS < 45001) ∧
    runSupervisor [⟨45001, []⟩] 0 GenTerminal.termAborted = (SupOutcome.timedOut, 1) :=
  ⟨by decide,
    (supervisor_timeout_watchdog [] [] ⟨45001, []⟩ 0 GenTerminal.termAborted
      (by simp) (by decide)).1⟩

/-- One slot of a dual generation: the schedule of its token events, the
gap before its terminal, and the underlying terminal. -/
structure SlotRun where
  arrivals : List TokenArrival
  finalGap : Nat
  term : GenTerminal
deriving DecidableEq, Repr

/-- The outcome `generateSingleResponse` produces for one slot; its catch
block handles every failure itself (it renders an inline error with a
retry action and does not rethrow), so the promise always resolves. -/
def generateSingleOutcome (r : SlotRun) : SupOutcome :=
  (runSupervisor r.arrivals r.finalGap r.term).1

/-- The accumulated texts the supervisor actually honours (forwards to the
output slot) before a guard trips. -/
def honoredTokens : List TokenArrival → List (List Char)
  | [] => []
  | a :: rest =>
    if TIMEOUT_MS < a.gap then []
    else if isRepetitive a.accumulated then []
    else a.accumulated :: honoredTokens rest

/-- Events of one output slot, tagged with the slot number. -/
inductive SlotEvent where
  | slotGenerating (slot : Nat)
  | slotToken (slot : Nat) (accumulated : List Char)
  | slotTerminal (slot : Nat) (outcome : SupOutcome)
deriving DecidableEq, Repr

def slotOf : SlotEvent → Nat
  | SlotEvent.slotGenerating s => s
  | SlotEvent.slotToken s _ => s
  | SlotEvent.slotTerminal s _ => s

/-- The observable event sequence of one supervised generation in a slot:
its `generating` start, its honoured token events, its terminal outcome. -/
def slotTrace (slot : Nat) (r : SlotRun) : List SlotEvent :=
  SlotEvent.slotGenerating slot ::
    (honoredTokens r.arrivals).map (SlotEvent.slotToken slot) ++
      [SlotEvent.slotTerminal slot (generateSingleOutcome r)]

/-- Event order of the sequential (same model) branch of
`generateResponse`: the second `generateSingleResponse` is awaited only
after the first resolves. -/
def dualTraceSeq (r1 r2 : SlotRun) : List SlotEvent :=
  slotTrace 1 r1 ++ slotTrace 2 r2

/-- Mirrors the dual-generation branch of `generateResponse` (lines
446-465): with equal model identifiers the two supervised calls run
sequentially (one totally ordered trace); with distinct identifiers they
are issued concurrently via `Promise.all` (no canonical interleaving is
recorded, `none`) and each slot's outcome is computed from that slot's
own run alone. -/
def dualGenerate (m1 m2 : String) (r1 r2 : SlotRun) :
    Option (List SlotEvent) × (SupOutcome × SupOutcome) :=
  if m1 = m2 then
    (some (dualTraceSeq r1 r2), (generateSingleOutcome r1, generateSingleOutcome r2))
  else
    (none, (generateSingleOutcome r1, generateSingleOutcome r2))

/-- Failure outcomes of one slot (timeout, repetition, engine error). -/
def isFailureOutcome : SupOutcome → Bool
  | SupOutcome.timedOut => true
  | SupOutcome.repetition => true
  | SupOutcome.genError _ => true
  | _ => false

theorem slotTrace_slotOf (s : Nat) (r : SlotRun) : ∀ e ∈ slotTrace s r, slotOf e = s := by
  intro e he
  unfold slotTrace at he
  rcases List.mem_cons.mp he with rfl | he
  · rfl
  · rcases List.mem_append.mp he with he | he
    · rcases List.mem_map.mp he with ⟨x, _, rfl⟩
      rfl
    · rcases List.mem_singleton.mp he with rfl
      rfl

theorem mem_of_getElem?_slot {l : List SlotEvent} {i : Nat} {x : SlotEvent}
    (h : l[i]? = some x) : x ∈ l := by
  rcases List.getElem?_eq_some.mp h with ⟨hlt, hx⟩
  exact hx ▸ List.getElem_mem hlt

/-- C7: with the same model identifier in both slots the two supervised
generations are strictly sequential — in the combined trace every
occurrence of the second slot's `generating` event comes strictly after
the first slot's terminal event; with distinct identifiers the two
supervised calls are issued concurrently and each slot's terminal outcome
is a function of its own run alone, so a failure in one slot cannot
change (or cancel) the other's outcome. -/
theorem dual_generation_independent (m1 m2 : String) (r1 r2 : SlotRun) :
    (m1 = m2 → dualGenerate m1 m2 r1 r2 =
      (some (dualTraceSeq r1 r2),
        (generateSingleOutcome r1, generateSingleOutcome r2))) ∧
    (∀ (i j : Nat) (o : SupOutcome),
      (dualTraceSeq r1 r2)[i]? = some (SlotEvent.slotTerminal 1 o) →
      (dualTraceSeq r1 r2)[j]? = some (SlotEvent.slotGenerating 2) → i < j) ∧
    (m1 ≠ m2 → dualGenerate m1 m2 r1 r2 =
      (none, (generateSingleOutcome r1, generateSingleOutcome r2))) ∧
    (∀ rA : SlotRun,
      (dualGenerate m1 m2 rA r2).2.2 = (dualGenerate m1 m2 r1 r2).2.2 ∧
      (dualGenerate m1 m2 r1 rA).2.1 = (dualGenerate m1 m2 r1 r2).2.1) := by
  refine ⟨?_, ?_, ?_, ?_⟩
  · intro h
    unfold dualGenerate
    rw [if_pos h]
  · intro i j o h1 h2
    have hi : i < (slotTrace 1 r1).length := by
      by_contra hge
      push_neg at hge
      rw [dualTraceSeq, List.getElem?_append_right hge] at h1
      have hmem := mem_of_getElem?_slot h1
      have hs := slotTrace_slotOf 2 r2 _ hmem
      simp [slotOf] at hs
    have hj : (slotTrace 1 r1).length ≤ j := by
      by_contra hlt
      push_neg at hlt
      rw [dualTraceSeq, List.getElem?_append_left hlt] at h2
      have hmem := mem_of_getElem?_slot h2
      have hs := slotTrace_slotOf 1 r1 _ hmem
      simp [slotOf] at hs
    omega
  · intro h
    unfold dualGenerate
    rw [if_neg h]
  · intro rA
    by_cases h : m1 = m2 <;> simp [dualGenerate, h]

theorem dual_generation_independent_witness :
    ("m" : String) = "m" ∧
    dualGenerate "m" "m" ⟨[], 0, GenTerminal.termComplete ['h']⟩
        ⟨[], 0, GenTerminal.termAborted⟩ =
      (some (dualTraceSeq ⟨[], 0, GenTerminal.termComplete ['h']⟩
          ⟨[], 0, GenTerminal.termAborted⟩),
        (generateSingleOutcome ⟨[], 0, GenTerminal.termComplete ['h']⟩,
          generateSingleOutcome ⟨[], 0, GenTerminal.termAborted⟩)) :=
  ⟨rfl,
    (dual_generation_independent "m" "m" ⟨[], 0, GenTerminal.termComplete ['h']⟩
      ⟨[], 0, GenTerminal.termAborted⟩).1 rfl⟩

end Chatbot
